import Mathlib

/-!
Verification of the UK number plate generator.

Shallow embedding of `uk_number_plate_generator.py` and proofs about it.

The Python class `UKNumberPlateGenerator` keeps a set of already issued
plates (`existing_generated_plates`, modelled as a `Finset String`), and
mints identifiers of the shape `PREFIX SUFFIX` where `PREFIX` is the
upper-cased 2-character DVLA memory tag followed by a 2-digit age code and
`SUFFIX` is drawn from the fixed enumeration of all 3-letter combinations
over the 23-letter alphabet A-Z without I, Q, Z.

Python's `random.randint` draw is modelled by passing the drawn start
index explicitly as an argument; the mutation of
`self.existing_generated_plates` is modelled by returning the new set.
-/

set_option maxRecDepth 8000

-- # Definitions

/-- Embeds `string.ascii_uppercase` from the Python standard library. -/
def asciiUppercase : List Char := "ABCDEFGHIJKLMNOPQRSTUVWXYZ".data

/-- Embeds `allowed_plate_chars = [char for char in string.ascii_uppercase if char not in 'IQZ']`. -/
def allowed_plate_chars : List Char :=
  asciiUppercase.filter (fun c => !("IQZ".data.contains c))

/-- Embeds
`all_possible_random_strings = [''.join(combo) for combo in product(allowed_plate_chars, repeat = 3)]`.
`itertools.product` enumerates triples lexicographically with the last
position varying fastest, which is exactly this nested `flatMap`. -/
def all_possible_random_strings : List String :=
  allowed_plate_chars.flatMap (fun a =>
    allowed_plate_chars.flatMap (fun b =>
      allowed_plate_chars.map (fun c => String.mk [a, b, c])))

/-- Embeds the index computation of the scan loop:
`index = (start_index + i) % len(self.all_possible_random_strings)` followed by
`self.all_possible_random_strings[index]`.  Since the index is reduced modulo
the length, the list access is always in bounds and `getD` with an arbitrary
default is exact. -/
def candidateAt (m : Nat) : String :=
  all_possible_random_strings.getD (m % all_possible_random_strings.length) ""

/-- Embeds the `for i in range(len(self.all_possible_random_strings))` loop of
`generate_available_random_string`: `fuel` is the number of loop iterations
still to run and `i` the current value of the loop counter. -/
def scanLoop (plates : Finset String) (pre : String) (start_index : Nat) :
    Nat → Nat → Except String String
  | 0, _ => Except.error "No more unique strings available"
  | fuel+1, i =>
    if pre ++ " " ++ candidateAt (start_index + i) ∈ plates then
      scanLoop plates pre start_index fuel (i+1)
    else
      Except.ok (candidateAt (start_index + i))

/-- Embeds `generate_available_random_string(self, number_plate_prefix)`.
The random draw `start_index = random.randint(0, len(...) - 1)` is passed in
explicitly; raising `ValueError` is modelled by `Except.error`. -/
def generate_available_random_string (plates : Finset String) (pre : String)
    (start_index : Nat) : Except String String :=
  scanLoop plates pre start_index all_possible_random_strings.length 0

-- ## Date parsing (`datetime.strptime(date_created_str, "%d/%m/%Y")`)

/-- Numeric value of an ASCII digit. -/
def digitVal (c : Char) : Nat := c.toNat - 48

/-- Modelled from the spec: CPython's `_strptime` matches `%d` with the regex
alternation `3[01]|[12]\d|0[1-9]|[1-9]| [1-9]`.  Because every two-character
alternative consumes a digit in second position while the one-character
alternatives require the following separator there, committing to the first
matching alternative is equivalent to full backtracking for this format. -/
def matchDay : List Char → Option (Nat × List Char)
  | c1 :: c2 :: rest =>
    if c1 = '3' ∧ (c2 = '0' ∨ c2 = '1') then some (30 + digitVal c2, rest)
    else if (c1 = '1' ∨ c1 = '2') ∧ c2.isDigit then
      some (10 * digitVal c1 + digitVal c2, rest)
    else if c1 = '0' ∧ ('1' ≤ c2 ∧ c2 ≤ '9') then some (digitVal c2, rest)
    else if '1' ≤ c1 ∧ c1 ≤ '9' then some (digitVal c1, c2 :: rest)
    else if c1 = ' ' ∧ ('1' ≤ c2 ∧ c2 ≤ '9') then some (digitVal c2, rest)
    else none
  | [c1] => if '1' ≤ c1 ∧ c1 ≤ '9' then some (digitVal c1, []) else none
  | [] => none

/-- Modelled from the spec: CPython matches `%m` with `1[0-2]|0[1-9]|[1-9]`. -/
def matchMonth : List Char → Option (Nat × List Char)
  | c1 :: c2 :: rest =>
    if c1 = '1' ∧ ('0' ≤ c2 ∧ c2 ≤ '2') then some (10 + digitVal c2, rest)
    else if c1 = '0' ∧ ('1' ≤ c2 ∧ c2 ≤ '9') then some (digitVal c2, rest)
    else if '1' ≤ c1 ∧ c1 ≤ '9' then some (digitVal c1, c2 :: rest)
    else none
  | [c1] => if '1' ≤ c1 ∧ c1 ≤ '9' then some (digitVal c1, []) else none
  | [] => none

/-- Modelled from the spec: CPython matches `%Y` with exactly four digits. -/
def matchYear : List Char → Option (Nat × List Char)
  | c1 :: c2 :: c3 :: c4 :: rest =>
    if c1.isDigit ∧ c2.isDigit ∧ c3.isDigit ∧ c4.isDigit then
      some (1000 * digitVal c1 + 100 * digitVal c2 + 10 * digitVal c3 + digitVal c4, rest)
    else none
  | _ => none

/-- Modelled from the spec: the full regex CPython builds for the format
string `"%d/%m/%Y"` — day, literal slash, month, literal slash, four-digit
year — matched from the start of the input, returning the unconsumed rest. -/
def matchFormat (cs : List Char) : Option (Nat × Nat × Nat × List Char) :=
  match matchDay cs with
  | none => none
  | some (d, cs1) =>
    match cs1 with
    | '/' :: cs2 =>
      match matchMonth cs2 with
      | none => none
      | some (m, cs3) =>
        match cs3 with
        | '/' :: cs4 =>
          match matchYear cs4 with
          | none => none
          | some (y, rest) => some (d, m, y, rest)
        | _ => none
    | _ => none

def isLeapYear (y : Nat) : Bool := y % 4 = 0 && (y % 100 != 0 || y % 400 = 0)

def daysInMonth (y m : Nat) : Nat :=
  if m = 2 then (if isLeapYear y then 29 else 28)
  else if m = 4 ∨ m = 6 ∨ m = 9 ∨ m = 11 then 30
  else 31

/-- Modelled from the spec: `datetime.strptime(s, "%d/%m/%Y")`.  A string that
does not match the textual format raises the format `ValueError` carrying the
literal input; a match that leaves unconsumed characters, a year of 0, or a
day beyond the month's length raise the other `ValueError`s of CPython's
`_strptime`/`datetime`.  Returns `(day, month, year)`. -/
def strptime_ddmmyyyy (date_created_str : String) : Except String (Nat × Nat × Nat) :=
  match matchFormat date_created_str.data with
  | none => Except.error ("time data '" ++ date_created_str ++
      "' does not match format '%d/%m/%Y'")
  | some (d, m, y, rest) =>
    if rest ≠ [] then Except.error ("unconverted data remains: " ++ String.mk rest)
    else if y = 0 then Except.error "year 0 is out of range"
    else if daysInMonth y m < d then Except.error "day is out of range for month"
    else Except.ok (d, m, y)

-- ## Age identifier (`generate_age_identifier`)

/-- Little-endian decimal digits of `n`, with explicit fuel so that the
recursion is structural; `fuel ≥ n` suffices since `n` shrinks strictly. -/
def digitsLE : Nat → Nat → List Nat
  | 0, _ => []
  | fuel+1, n => if n = 0 then [] else n % 10 :: digitsLE fuel (n / 10)

/-- Embeds Python's `str(n)` for a non-negative integer. -/
def decimalString (n : Nat) : String :=
  if n = 0 then "0" else String.mk ((digitsLE n n).reverse.map Nat.digitChar)

/-- Embeds Python's slice `s[-2:]` (the last two characters, or all of a
shorter string). -/
def pyLastTwo (s : String) : String := String.mk (s.data.drop (s.data.length - 2))

/-- Embeds `generate_age_identifier(self, date_created)`; the `datetime`
argument is represented by its `year` and `month` fields, the only ones read. -/
def generate_age_identifier (year month : Nat) : String :=
  if 3 ≤ month ∧ month ≤ 8 then pyLastTwo (decimalString year)
  else pyLastTwo (decimalString (year + 50))

/-- Specification-side rendering of "the last two digits of `k`": the
two-character zero-padded decimal numeral of `k % 100`.  Used to compare the
string slicing performed by the code against plain modular arithmetic. -/
def twoDigitString (k : Nat) : String :=
  String.mk [Nat.digitChar (k / 10), Nat.digitChar (k % 10)]

-- ## Tag normalisation and the full mint operation

/-- Embeds Python's `str.upper()` for the ASCII range (tags are ASCII). -/
def pyUpperChar (c : Char) : Char :=
  if 'a' ≤ c ∧ c ≤ 'z' then Char.ofNat (c.toNat - 32) else c

def pyUpper (s : String) : String := String.mk (s.data.map pyUpperChar)

/-- Embeds `generate_numberplate(self, dvla_memory_tag, date_created_str)`.
The drawn random start index is passed explicitly; the pair returned is the
function's result (`Except` models `return` vs `raise ValueError`) together
with the value of `self.existing_generated_plates` after the call. -/
def generate_numberplate (plates : Finset String) (dvla_memory_tag : String)
    (date_created_str : String) (start_index : Nat) :
    Except String String × Finset String :=
  match strptime_ddmmyyyy date_created_str with
  | Except.error e => (Except.error e, plates)
  | Except.ok (_, month, year) =>
    let tagU := pyUpper dvla_memory_tag
    if ['I', 'Q', 'Z'].any (fun c => tagU.data.contains c) then
      (Except.error "I, Q, Z not allowed in UK number plates", plates)
    else if tagU.data.length ≠ 2 then
      (Except.error "DVLA memory tag must be 2 characters in length", plates)
    else
      let age := generate_age_identifier year month
      let pre := tagU ++ age
      match generate_available_random_string plates pre start_index with
      | Except.error e => (Except.error e, plates)
      | Except.ok rs =>
        let plate := pre ++ " " ++ rs
        (Except.ok plate, insert plate plates)

-- ## Persistence (`save_to_csv` / `load_from_csv`)

/-- Embeds `save_to_csv`: the `csv` module is modelled at the level of rows of
fields; the written file is the list of one-field rows, one per tracked plate.
Python iterates the set in an unspecified order; here that enumeration is
modelled by the sorted one (every property proved about it is
order-independent, as the spec demands of the write order). -/
def save_to_csv (plates : Finset String) : List (List String) :=
  (plates.sort (· ≤ ·)).map (fun s => [s])

/-- Embeds `load_from_csv`: keep the first field `row[0]` of every non-empty
row and collapse duplicates with `set(...)`. -/
def load_from_csv (rows : List (List String)) : Finset String :=
  ((rows.filter (fun r => !r.isEmpty)).map (fun r => r.headD "")).toFinset

-- ## Construction (`__init__`)

/-- Embeds Python's slice `save_file_path[-4:]` (last four characters, or the
whole of a shorter string). -/
def pyLastFour (s : String) : String := String.mk (s.data.drop (s.data.length - 4))

/-- Embeds the `try`/`except IOError` block of `__init__`: when the file
exists the load is attempted, and on an `IOError` the handler only prints, so
`self.existing_generated_plates` is never assigned — modelled by `none`.
When the file does not exist the attribute is set to the empty set. -/
def initPlates (fileExists : Bool) (loadResult : Except String (Finset String)) :
    Option (Finset String) :=
  if fileExists then
    match loadResult with
    | Except.ok s => some s
    | Except.error _ => none
  else some ∅

/-- Embeds `__init__(self, save_file_path)`.  `fileExists` models
`os.path.isfile(save_file_path)` and `loadResult` the outcome of
`load_from_csv` (which performs I/O and may raise `IOError`).  The result is
`Except.error` when the constructor raises, otherwise the final value of
`self.existing_generated_plates` (`none` when the attribute was never set). -/
def generatorInit (save_file_path : String) (fileExists : Bool)
    (loadResult : Except String (Finset String)) :
    Except String (Option (Finset String)) :=
  if pyLastFour save_file_path ≠ ".csv" then
    Except.error "File must be a .csv file"
  else
    Except.ok (initPlates fileExists loadResult)

/-- Decidable equality for `Except`, used to evaluate the model on concrete
inputs. -/
instance exceptDecEq {ε α : Type} [DecidableEq ε] [DecidableEq α] :
    DecidableEq (Except ε α) := fun a b =>
  match a, b with
  | Except.error x, Except.error y =>
    if h : x = y then Decidable.isTrue (by rw [h]) else
      Decidable.isFalse (fun hc => by injection hc with hc; exact h hc)
  | Except.error _, Except.ok _ => Decidable.isFalse (fun hc => Except.noConfusion hc)
  | Except.ok _, Except.error _ => Decidable.isFalse (fun hc => Except.noConfusion hc)
  | Except.ok x, Except.ok y =>
    if h : x = y then Decidable.isTrue (by rw [h]) else
      Decidable.isFalse (fun hc => by injection hc with hc; exact h hc)

-- # Theorems

-- ## Basic facts about the suffix space

theorem allowed_length : allowed_plate_chars.length = 23 := by decide

/-- Sum of a constant map. -/
theorem sum_map_const {α : Type} (l : List α) (k : Nat) :
    (l.map (fun _ => k)).sum = l.length * k := by
  induction l with
  | nil => simp
  | cons a t ih => simp [ih, Nat.succ_mul, Nat.add_comm]

/-- Length of a `flatMap` whose pieces all have length `k`. -/
theorem length_flatMap_const {α β : Type} (l : List α) (f : α → List β) (k : Nat)
    (hf : ∀ a ∈ l, (f a).length = k) : (l.flatMap f).length = l.length * k := by
  induction l with
  | nil => simp
  | cons a t ih =>
    have ha : (f a).length = k := hf a (List.mem_cons_self a t)
    have ht : ∀ x ∈ t, (f x).length = k := fun x hx => hf x (List.mem_cons_of_mem a hx)
    simp [List.flatMap_cons, ha, ih ht, Nat.succ_mul, Nat.add_comm]

theorem inner_length (a : Char) :
    (allowed_plate_chars.flatMap (fun b =>
      allowed_plate_chars.map (fun c => String.mk [a, b, c]))).length = 529 := by
  have h := length_flatMap_const allowed_plate_chars
    (fun b => allowed_plate_chars.map (fun c => String.mk [a, b, c])) 23
    (fun b _ => by rw [List.length_map, allowed_length])
  rw [h, allowed_length]

theorem length_all : all_possible_random_strings.length = 12167 := by
  have h := length_flatMap_const allowed_plate_chars
    (fun a => allowed_plate_chars.flatMap (fun b =>
      allowed_plate_chars.map (fun c => String.mk [a, b, c]))) 529
    (fun a _ => inner_length a)
  rw [all_possible_random_strings, h, allowed_length]

/-- Indexing a `flatMap` whose pieces all have length `k`. -/
theorem getD_flatMap_const {α β : Type} (l : List α) (f : α → List β) (k : Nat)
    (hf : ∀ a ∈ l, (f a).length = k) (i : Nat) (hi : i < l.length * k)
    (d : β) (da : α) :
    (l.flatMap f).getD i d = (f (l.getD (i / k) da)).getD (i % k) d := by
  induction l generalizing i with
  | nil => simp at hi
  | cons a t ih =>
    have ha : (f a).length = k := hf a (List.mem_cons_self a t)
    have ht : ∀ x ∈ t, (f x).length = k := fun x hx => hf x (List.mem_cons_of_mem a hx)
    rw [List.flatMap_cons]
    by_cases hik : i < k
    · rw [List.getD_append _ _ _ _ (by rw [ha]; exact hik),
        Nat.div_eq_of_lt hik, Nat.mod_eq_of_lt hik, List.getD_cons_zero]
    · have hki : k ≤ i := Nat.le_of_not_lt hik
      have hk0 : 0 < k := by
        rcases Nat.eq_zero_or_pos k with h0 | h0
        · subst h0; simp at hi
        · exact h0
      rw [List.getD_append_right _ _ _ _ (by rw [ha]; exact hki), ha]
      have hi2 : i - k < t.length * k := by
        have hlen : (a :: t).length * k = k + t.length * k := by
          simp [List.length_cons, Nat.succ_mul, Nat.add_comm]
        omega
      rw [ih ht (i - k) hi2]
      have hdiv : i / k = (i - k) / k + 1 := Nat.div_eq_sub_div hk0 hki
      have hmod : i % k = (i - k) % k := Nat.mod_eq_sub_mod hki
      rw [hdiv, hmod, List.getD_cons_succ]

/-- Indexing a `map`, with arbitrary defaults, for in-range indices. -/
theorem getD_map_lt {α β : Type} (l : List α) (g : α → β) (i : Nat)
    (h : i < l.length) (d : β) (da : α) :
    (l.map g).getD i d = g (l.getD i da) := by
  induction l generalizing i with
  | nil => simp at h
  | cons a t ih =>
    cases i with
    | zero => simp
    | succ j =>
      have hj : j < t.length := by simpa using h
      rw [List.map_cons, List.getD_cons_succ, List.getD_cons_succ, ih j hj]

/-- Closed form for indexing the suffix enumeration: position `i` holds the
string built from the base-23 digits of `i`. -/
theorem getD_all (i : Nat) (hi : i < 12167) :
    all_possible_random_strings.getD i "" =
      String.mk [allowed_plate_chars.getD (i / 529) 'A',
        allowed_plate_chars.getD (i / 23 % 23) 'A',
        allowed_plate_chars.getD (i % 23) 'A'] := by
  have h1 := getD_flatMap_const allowed_plate_chars
    (fun a => allowed_plate_chars.flatMap (fun b =>
      allowed_plate_chars.map (fun c => String.mk [a, b, c]))) 529
    (fun a _ => inner_length a) i
    (by rw [allowed_length]; omega) "" 'A'
  have h2 := getD_flatMap_const allowed_plate_chars
    (fun b => allowed_plate_chars.map
      (fun c => String.mk [allowed_plate_chars.getD (i / 529) 'A', b, c])) 23
    (fun b _ => by rw [List.length_map, allowed_length]) (i % 529)
    (by rw [allowed_length]; omega) "" 'A'
  have h3 := getD_map_lt allowed_plate_chars
    (fun c => String.mk [allowed_plate_chars.getD (i / 529) 'A',
      allowed_plate_chars.getD (i % 529 / 23) 'A', c]) (i % 529 % 23)
    (by rw [allowed_length]; omega) "" 'A'
  have hmoddiv : i % 529 / 23 = i / 23 % 23 := by
    have e1 : (529 : Nat) = 23 * 23 := by norm_num
    rw [e1, Nat.mod_mul_right_div_self]
  have hmodmod : i % 529 % 23 = i % 23 := Nat.mod_mod_of_dvd i (by norm_num)
  unfold all_possible_random_strings
  rw [h1, h2, h3, hmoddiv, hmodmod]

theorem candidateAt_eq (m : Nat) (h : m < 12167) :
    candidateAt m = all_possible_random_strings.getD m "" := by
  unfold candidateAt
  rw [length_all, Nat.mod_eq_of_lt h]

/-- Closed form for a scan candidate at an in-range position. -/
theorem candidateAt_val (m : Nat) (h : m < 12167) :
    candidateAt m =
      String.mk [allowed_plate_chars.getD (m / 529) 'A',
        allowed_plate_chars.getD (m / 23 % 23) 'A',
        allowed_plate_chars.getD (m % 23) 'A'] := by
  rw [candidateAt_eq m h, getD_all m h]

theorem candidateAt_mem (m : Nat) : candidateAt m ∈ all_possible_random_strings := by
  unfold candidateAt
  have hlt : m % all_possible_random_strings.length < all_possible_random_strings.length := by
    rw [length_all]; omega
  rw [List.getD_eq_getElem _ _ hlt]
  exact List.getElem_mem hlt

/-- Any `12167` consecutive indices cover every residue modulo `12167`: given a
target index `idx` there is an offset `k < 12167` with `(start + k) % 12167 = idx`. -/
theorem exists_shift (start idx : Nat) (h : idx < 12167) :
    ∃ k, k < 12167 ∧ (start + k) % 12167 = idx := by
  have hs : start % 12167 < 12167 := by omega
  by_cases hle : start % 12167 ≤ idx
  · refine ⟨idx - start % 12167, by omega, ?_⟩
    have : start + (idx - start % 12167) = 12167 * (start / 12167) + idx := by
      have := Nat.div_add_mod start 12167
      omega
    rw [this, Nat.mul_add_mod, Nat.mod_eq_of_lt h]
  · refine ⟨idx + 12167 - start % 12167, by omega, ?_⟩
    have : start + (idx + 12167 - start % 12167) =
        12167 * (start / 12167 + 1) + idx := by
      have := Nat.div_add_mod start 12167
      omega
    rw [this, Nat.mul_add_mod, Nat.mod_eq_of_lt h]

/-- Every element of the suffix enumeration is hit by some scan offset
`k < 12167` from any start index. -/
theorem mem_eq_candidateAt (start : Nat) (c : String)
    (hc : c ∈ all_possible_random_strings) :
    ∃ k, k < 12167 ∧ candidateAt (start + k) = c := by
  obtain ⟨n, hb, hn⟩ := List.mem_iff_getElem.mp hc
  have hlt : n < 12167 := lt_of_lt_of_eq hb length_all
  obtain ⟨k, hk, hmod⟩ := exists_shift start n hlt
  refine ⟨k, hk, ?_⟩
  unfold candidateAt
  rw [length_all, hmod, List.getD_eq_getElem _ _ hb]
  exact hn

/- All facts that require computing inside the suffix enumeration are proved
above; from here on the enumeration is only handled through those lemmas, and
making it irreducible keeps tactics from trying to evaluate the 12167-element
list. -/
attribute [irreducible] all_possible_random_strings

-- ## Behaviour of the scan loop

theorem scanLoop_ok_not_mem (plates : Finset String) (pre : String) (start : Nat) :
    ∀ (fuel i : Nat) (s : String),
      scanLoop plates pre start fuel i = Except.ok s → pre ++ " " ++ s ∉ plates := by
  intro fuel
  induction fuel with
  | zero => intro i s h; exact Except.noConfusion h
  | succ f ih =>
    intro i s h
    rw [scanLoop] at h
    by_cases hm : pre ++ " " ++ candidateAt (start + i) ∈ plates
    · rw [if_pos hm] at h
      exact ih (i+1) s h
    · rw [if_neg hm] at h
      injection h with h
      rw [← h]
      exact hm

theorem scanLoop_ok_mem_space (plates : Finset String) (pre : String) (start : Nat) :
    ∀ (fuel i : Nat) (s : String),
      scanLoop plates pre start fuel i = Except.ok s → s ∈ all_possible_random_strings := by
  intro fuel
  induction fuel with
  | zero => intro i s h; exact Except.noConfusion h
  | succ f ih =>
    intro i s h
    rw [scanLoop] at h
    by_cases hm : pre ++ " " ++ candidateAt (start + i) ∈ plates
    · rw [if_pos hm] at h
      exact ih (i+1) s h
    · rw [if_neg hm] at h
      injection h with h
      rw [← h]
      exact candidateAt_mem _

/-- If some offset in the remaining window is free, the scan returns the first
free candidate of the window. -/
theorem scanLoop_finds (plates : Finset String) (pre : String) (start : Nat) :
    ∀ (fuel i : Nat),
      (∃ k, i ≤ k ∧ k < i + fuel ∧ pre ++ " " ++ candidateAt (start + k) ∉ plates) →
      ∃ k, i ≤ k ∧ k < i + fuel ∧
        (∀ j, i ≤ j → j < k → pre ++ " " ++ candidateAt (start + j) ∈ plates) ∧
        pre ++ " " ++ candidateAt (start + k) ∉ plates ∧
        scanLoop plates pre start fuel i = Except.ok (candidateAt (start + k)) := by
  intro fuel
  induction fuel with
  | zero =>
    intro i h
    obtain ⟨k, hik, hk, _⟩ := h
    omega
  | succ f ih =>
    intro i h
    by_cases hm : pre ++ " " ++ candidateAt (start + i) ∈ plates
    · obtain ⟨k, hik, hk, hfree⟩ := h
      have hki : k ≠ i := by
        intro e
        rw [e] at hfree
        exact hfree hm
      obtain ⟨k1, hik1, hk1, hmin1, hfree1, heq1⟩ := ih (i+1) ⟨k, by omega, by omega, hfree⟩
      refine ⟨k1, by omega, by omega, ?_, hfree1, ?_⟩
      · intro j hij hjk
        rcases Nat.eq_or_lt_of_le hij with he | hlt
        · rw [← he]; exact hm
        · exact hmin1 j hlt hjk
      · rw [scanLoop, if_pos hm]
        exact heq1
    · refine ⟨i, Nat.le_refl i, by omega, ?_, hm, ?_⟩
      · intro j hij hji; omega
      · rw [scanLoop, if_neg hm]

/-- The scan fails exactly when every offset of the remaining window is taken,
and the only error it can produce is the exhaustion message. -/
theorem scanLoop_error_iff (plates : Finset String) (pre : String) (start : Nat) :
    ∀ (fuel i : Nat) (e : String),
      (scanLoop plates pre start fuel i = Except.error e ↔
        (e = "No more unique strings available" ∧
          ∀ k, i ≤ k → k < i + fuel → pre ++ " " ++ candidateAt (start + k) ∈ plates)) := by
  intro fuel
  induction fuel with
  | zero =>
    intro i e
    constructor
    · intro h
      injection h with h
      exact ⟨h.symm, fun k h1 h2 => by omega⟩
    · intro ⟨he, _⟩
      rw [scanLoop, he]
  | succ f ih =>
    intro i e
    by_cases hm : pre ++ " " ++ candidateAt (start + i) ∈ plates
    · rw [scanLoop, if_pos hm, ih (i+1) e]
      constructor
      · intro ⟨he, hall⟩
        refine ⟨he, fun k h1 h2 => ?_⟩
        rcases Nat.eq_or_lt_of_le h1 with hh | hh
        · rw [← hh]; exact hm
        · exact hall k hh (by omega)
      · intro ⟨he, hall⟩
        exact ⟨he, fun k h1 h2 => hall k (by omega) (by omega)⟩
    · rw [scanLoop, if_neg hm]
      constructor
      · intro h; exact Except.noConfusion h
      · intro ⟨_, hall⟩
        exact absurd (hall i (Nat.le_refl i) (by omega)) hm

-- ## `generate_available_random_string`: derived facts

/-- A returned suffix is never already combined with the prefix in the set. -/
theorem gen_avail_ok_not_mem (plates : Finset String) (pre : String)
    (start : Nat) (s : String)
    (h : generate_available_random_string plates pre start = Except.ok s) :
    pre ++ " " ++ s ∉ plates :=
  scanLoop_ok_not_mem plates pre start all_possible_random_strings.length 0 s h

/-- A returned suffix is an element of the suffix enumeration. -/
theorem gen_avail_ok_mem_space (plates : Finset String) (pre : String)
    (start : Nat) (s : String)
    (h : generate_available_random_string plates pre start = Except.ok s) :
    s ∈ all_possible_random_strings :=
  scanLoop_ok_mem_space plates pre start all_possible_random_strings.length 0 s h

/-- If some candidate is free, the scan returns the first free offset. -/
theorem gen_avail_finds (plates : Finset String) (pre : String) (start : Nat)
    (h : ∃ c ∈ all_possible_random_strings, pre ++ " " ++ c ∉ plates) :
    ∃ k, k ≤ 12166 ∧
      (∀ j, j < k → pre ++ " " ++ candidateAt (start + j) ∈ plates) ∧
      pre ++ " " ++ candidateAt (start + k) ∉ plates ∧
      generate_available_random_string plates pre start =
        Except.ok (candidateAt (start + k)) := by
  obtain ⟨c, hc, hcf⟩ := h
  obtain ⟨k0, hk0, hck⟩ := mem_eq_candidateAt start c hc
  have hex : ∃ k, 0 ≤ k ∧ k < 0 + all_possible_random_strings.length ∧
      pre ++ " " ++ candidateAt (start + k) ∉ plates := by
    refine ⟨k0, Nat.zero_le _, ?_, by rw [hck]; exact hcf⟩
    rw [length_all]; omega
  obtain ⟨k, _, hkb, hmin, hfree, heq⟩ :=
    scanLoop_finds plates pre start all_possible_random_strings.length 0 hex
  rw [length_all] at hkb
  exact ⟨k, by omega, fun j hj => hmin j (Nat.zero_le j) hj, hfree, heq⟩

/-- Uniqueness of the first free offset: knowing where the first free
candidate sits determines the scan's result. -/
theorem gen_avail_eval (plates : Finset String) (pre : String) (start k : Nat)
    (hk : k < 12167)
    (hmin : ∀ j, j < k → pre ++ " " ++ candidateAt (start + j) ∈ plates)
    (hfree : pre ++ " " ++ candidateAt (start + k) ∉ plates) :
    generate_available_random_string plates pre start =
      Except.ok (candidateAt (start + k)) := by
  have hex : ∃ c ∈ all_possible_random_strings, pre ++ " " ++ c ∉ plates :=
    ⟨candidateAt (start + k), candidateAt_mem _, hfree⟩
  obtain ⟨k1, hk1, hmin1, hfree1, heq⟩ := gen_avail_finds plates pre start hex
  have hkk : k1 = k := by
    rcases Nat.lt_trichotomy k1 k with h | h | h
    · exact absurd (hmin k1 h) hfree1
    · exact h
    · exact absurd (hmin1 k h) hfree
  rw [heq, hkk]

/-- The scan raises the exhaustion error exactly when every candidate for the
prefix is taken, and that is the only error it can raise. -/
theorem gen_avail_error_iff (plates : Finset String) (pre : String)
    (start : Nat) (e : String) :
    generate_available_random_string plates pre start = Except.error e ↔
      (e = "No more unique strings available" ∧
        ∀ c ∈ all_possible_random_strings, pre ++ " " ++ c ∈ plates) := by
  rw [generate_available_random_string,
    scanLoop_error_iff plates pre start all_possible_random_strings.length 0 e]
  constructor
  · intro ⟨he, hall⟩
    refine ⟨he, fun c hc => ?_⟩
    obtain ⟨k, hk, hck⟩ := mem_eq_candidateAt start c hc
    rw [← hck]
    exact hall k (Nat.zero_le k) (by rw [length_all]; omega)
  · intro ⟨he, hall⟩
    exact ⟨he, fun k _ _ => hall (candidateAt (start + k)) (candidateAt_mem _)⟩

-- ## `generate_numberplate`: derived facts

/-- Successful mint: with a parsed date, a valid tag and an available suffix,
`generate_numberplate` returns the assembled plate and inserts it. -/
theorem gen_numberplate_ok (plates : Finset String) (tag s : String)
    (start d m y : Nat) (rs : String)
    (hd : strptime_ddmmyyyy s = Except.ok (d, m, y))
    (hIQZ : (['I', 'Q', 'Z'].any (fun c => (pyUpper tag).data.contains c)) = false)
    (hlen : (pyUpper tag).data.length = 2)
    (hscan : generate_available_random_string plates
      (pyUpper tag ++ generate_age_identifier y m) start = Except.ok rs) :
    generate_numberplate plates tag s start =
      (Except.ok (pyUpper tag ++ generate_age_identifier y m ++ " " ++ rs),
        insert (pyUpper tag ++ generate_age_identifier y m ++ " " ++ rs) plates) := by
  unfold generate_numberplate
  rw [hd]
  simp only [hIQZ, hlen, Bool.false_eq_true, if_false, ne_eq,
    not_true_eq_false, if_false]
  rw [hscan]

-- ## Decimal strings and the age identifier

/-- The digits of `n` do not depend on the fuel once the fuel dominates `n`. -/
theorem digitsLE_congr : ∀ (f g n : Nat), n ≤ f → n ≤ g →
    digitsLE f n = digitsLE g n := by
  intro f
  induction f with
  | zero =>
    intro g n hf _
    have : n = 0 := Nat.le_zero.mp hf
    subst this
    cases g with
    | zero => rfl
    | succ g1 => rw [digitsLE, digitsLE, if_pos rfl]
  | succ f1 ih =>
    intro g n hf hg
    cases g with
    | zero =>
      have : n = 0 := Nat.le_zero.mp hg
      subst this
      rw [digitsLE, digitsLE, if_pos rfl]
    | succ g1 =>
      by_cases hn : n = 0
      · subst hn
        rw [digitsLE, digitsLE, if_pos rfl, if_pos rfl]
      · rw [digitsLE, digitsLE, if_neg hn, if_neg hn]
        have hlt : n / 10 < n := Nat.div_lt_self (Nat.pos_of_ne_zero hn) (by norm_num)
        rw [ih g1 (n / 10) (by omega) (by omega)]

/-- One unfolding of `digitsLE` at a positive argument with enough fuel. -/
theorem digitsLE_step (f n : Nat) (hf : n ≤ f) (hn : 0 < n) :
    digitsLE f n = n % 10 :: digitsLE (n / 10) (n / 10) := by
  cases f with
  | zero => omega
  | succ f1 =>
    rw [digitsLE, if_neg (by omega)]
    have hlt : n / 10 < n := Nat.div_lt_self hn (by norm_num)
    rw [digitsLE_congr f1 (n / 10) (n / 10) (by omega) (Nat.le_refl _)]

/-- For a number of at least two digits, Python's `str(n)[-2:]` is the
zero-padded two-digit numeral of `n % 100`. -/
theorem pyLastTwo_decimal (n : Nat) (h : 10 ≤ n) :
    pyLastTwo (decimalString n) = twoDigitString (n % 100) := by
  have hn0 : n ≠ 0 := by omega
  have h1 : digitsLE n n = n % 10 :: digitsLE (n / 10) (n / 10) :=
    digitsLE_step n n (Nat.le_refl n) (by omega)
  have h10 : 0 < n / 10 := Nat.div_pos h (by norm_num)
  have h2 : digitsLE (n / 10) (n / 10) =
      n / 10 % 10 :: digitsLE (n / 10 / 10) (n / 10 / 10) :=
    digitsLE_step (n / 10) (n / 10) (Nat.le_refl _) h10
  unfold decimalString
  rw [if_neg hn0, h1, h2]
  unfold pyLastTwo
  show String.mk
    ((((n % 10 :: n / 10 % 10 :: digitsLE (n / 10 / 10) (n / 10 / 10)).reverse.map
        Nat.digitChar).drop
      ((( n % 10 :: n / 10 % 10 :: digitsLE (n / 10 / 10) (n / 10 / 10)).reverse.map
        Nat.digitChar).length - 2))) = _
  rw [List.reverse_cons, List.reverse_cons, List.append_assoc]
  rw [List.map_append, List.length_append]
  have hlen2 :
      (([n / 10 % 10] ++ [n % 10]).map Nat.digitChar).length = 2 := by simp
  rw [hlen2]
  have hdrop :
      (((digitsLE (n / 10 / 10) (n / 10 / 10)).reverse.map Nat.digitChar).length + 2 - 2)
        = ((digitsLE (n / 10 / 10) (n / 10 / 10)).reverse.map Nat.digitChar).length := by
    omega
  rw [hdrop, List.drop_left]
  unfold twoDigitString
  have e100 : (100 : Nat) = 10 * 10 := by norm_num
  have hm1 : n % 100 / 10 = n / 10 % 10 := by rw [e100, Nat.mod_mul_right_div_self]
  have hm2 : n % 100 % 10 = n % 10 := Nat.mod_mod_of_dvd n (by norm_num)
  rw [hm1, hm2]
  simp

-- ## `generate_numberplate`: error paths

/-- A date-parsing failure is propagated unchanged, whatever the tag. -/
theorem gen_numberplate_date_error (plates : Finset String) (tag s : String)
    (start : Nat) (e : String) (hd : strptime_ddmmyyyy s = Except.error e) :
    generate_numberplate plates tag s start = (Except.error e, plates) := by
  unfold generate_numberplate
  rw [hd]

/-- With a parsed date, an excluded letter in the upper-cased tag raises the
fixed message (checked before the length). -/
theorem gen_numberplate_IQZ_error (plates : Finset String) (tag s : String)
    (start d m y : Nat)
    (hd : strptime_ddmmyyyy s = Except.ok (d, m, y))
    (hIQZ : (['I', 'Q', 'Z'].any (fun c => (pyUpper tag).data.contains c)) = true) :
    generate_numberplate plates tag s start =
      (Except.error "I, Q, Z not allowed in UK number plates", plates) := by
  unfold generate_numberplate
  rw [hd]
  simp only [hIQZ, if_true]

/-- With a parsed date and no excluded letter, a tag whose normalised length
is not 2 raises the length message. -/
theorem gen_numberplate_len_error (plates : Finset String) (tag s : String)
    (start d m y : Nat)
    (hd : strptime_ddmmyyyy s = Except.ok (d, m, y))
    (hIQZ : (['I', 'Q', 'Z'].any (fun c => (pyUpper tag).data.contains c)) = false)
    (hlen : (pyUpper tag).data.length ≠ 2) :
    generate_numberplate plates tag s start =
      (Except.error "DVLA memory tag must be 2 characters in length", plates) := by
  unfold generate_numberplate
  rw [hd]
  simp only [hIQZ, Bool.false_eq_true, if_false, ne_eq, hlen, not_false_eq_true, if_true]

/-- With valid inputs but an exhausted suffix space, the scan's error is
propagated and nothing is inserted. -/
theorem gen_numberplate_scan_error (plates : Finset String) (tag s : String)
    (start d m y : Nat) (e : String)
    (hd : strptime_ddmmyyyy s = Except.ok (d, m, y))
    (hIQZ : (['I', 'Q', 'Z'].any (fun c => (pyUpper tag).data.contains c)) = false)
    (hlen : (pyUpper tag).data.length = 2)
    (hscan : generate_available_random_string plates
      (pyUpper tag ++ generate_age_identifier y m) start = Except.error e) :
    generate_numberplate plates tag s start = (Except.error e, plates) := by
  unfold generate_numberplate
  rw [hd]
  simp only [hIQZ, Bool.false_eq_true, if_false, ne_eq, hlen, not_true_eq_false, if_false]
  rw [hscan]

/-- Exhaustive case split: either the tracked set is returned unchanged, or
the call succeeded and exactly the returned plate was inserted. -/
theorem gen_numberplate_cases (plates : Finset String) (tag s : String)
    (start : Nat) :
    (generate_numberplate plates tag s start).2 = plates ∨
      ∃ plate, (generate_numberplate plates tag s start).1 = Except.ok plate ∧
        (generate_numberplate plates tag s start).2 = insert plate plates := by
  unfold generate_numberplate
  split
  · exact Or.inl rfl
  · dsimp only
    split
    · exact Or.inl rfl
    · split
      · exact Or.inl rfl
      · split
        · exact Or.inl rfl
        · exact Or.inr ⟨_, rfl, rfl⟩

-- # Claim theorems

/-- C1: for every prefix, Tracked Set and start index in `[0, 12166]`, if some
of the 12167 candidates is free for the prefix then
`generate_available_random_string` returns the first free candidate met when
scanning forward from the start index with wrap-around modulo 12167 over the
fixed enumeration; the returned suffix is never already combined with the
prefix in the set; on an empty set it returns exactly the element at the start
index (index 0 is "AAA" and index 12166 is "YYY"); and when the start-index
suffix is taken the next untaken suffix in circular forward order is returned
(prefix "YA07", set {"YA07 AAA", "YA07 AAB"}, start 0 gives "AAC"). -/
theorem generate_available_suffix_first_free (pre : String)
    (plates : Finset String) (start : Nat) (hstart : start ≤ 12166) :
    ((∃ c ∈ all_possible_random_strings, pre ++ " " ++ c ∉ plates) →
      ∃ k, k ≤ 12166 ∧
        (∀ j, j < k → pre ++ " " ++ candidateAt (start + j) ∈ plates) ∧
        pre ++ " " ++ candidateAt (start + k) ∉ plates ∧
        generate_available_random_string plates pre start =
          Except.ok (candidateAt (start + k))) ∧
    (∀ s, generate_available_random_string plates pre start = Except.ok s →
      pre ++ " " ++ s ∉ plates) ∧
    (plates = ∅ → generate_available_random_string plates pre start =
      Except.ok (all_possible_random_strings.getD start "")) ∧
    all_possible_random_strings.getD 0 "" = "AAA" ∧
    all_possible_random_strings.getD 12166 "" = "YYY" ∧
    generate_available_random_string {"YA07 AAA", "YA07 AAB"} "YA07" 0 =
      Except.ok "AAC" := by
  refine ⟨fun h => gen_avail_finds plates pre start h,
    fun s h => gen_avail_ok_not_mem plates pre start s h, ?_, ?_, ?_, ?_⟩
  · intro he
    subst he
    have h := gen_avail_eval ∅ pre start 0 (by norm_num)
      (fun j hj => by omega) (Finset.not_mem_empty _)
    rw [h, Nat.add_zero, candidateAt_eq start (by omega)]
  · rw [getD_all 0 (by norm_num)]
    decide
  · rw [getD_all 12166 (by norm_num)]
    decide
  · have hc0 : candidateAt (0 + 0) = "AAA" := by
      rw [show (0 + 0 : Nat) = 0 from rfl, candidateAt_val 0 (by norm_num)]
      decide
    have hc1 : candidateAt (0 + 1) = "AAB" := by
      rw [show (0 + 1 : Nat) = 1 from rfl, candidateAt_val 1 (by norm_num)]
      decide
    have hc2 : candidateAt (0 + 2) = "AAC" := by
      rw [show (0 + 2 : Nat) = 2 from rfl, candidateAt_val 2 (by norm_num)]
      decide
    have h := gen_avail_eval {"YA07 AAA", "YA07 AAB"} "YA07" 0 2 (by norm_num)
      ?_ ?_
    · rw [hc2] at h
      exact h
    · intro j hj
      interval_cases j
      · rw [hc0]; decide
      · rw [hc1]; decide
    · rw [hc2]; decide

theorem generate_available_suffix_first_free_witness :
    (0 : Nat) ≤ 12166 ∧
      generate_available_random_string {"YA07 AAA", "YA07 AAB"} "YA07" 0 =
        Except.ok "AAC" :=
  ⟨by norm_num,
    (generate_available_suffix_first_free "YA07" {"YA07 AAA", "YA07 AAB"} 0
      (by norm_num)).2.2.2.2.2⟩

/-- C4: for every prefix and Tracked Set, the scan raises the exhaustion error
"No more unique strings available" if and only if all 12167 candidates
combined with the prefix are present in the set; no other error is possible;
the suffix space has exactly 12167 elements. -/
theorem generate_available_suffix_exhaustion (pre : String)
    (plates : Finset String) (start : Nat) :
    (generate_available_random_string plates pre start =
        Except.error "No more unique strings available" ↔
      ∀ c ∈ all_possible_random_strings, pre ++ " " ++ c ∈ plates) ∧
    (∀ e, generate_available_random_string plates pre start = Except.error e →
      e = "No more unique strings available") ∧
    all_possible_random_strings.length = 12167 := by
  refine ⟨?_, ?_, length_all⟩
  · rw [gen_avail_error_iff]
    constructor
    · intro ⟨_, h⟩
      exact h
    · intro h
      exact ⟨rfl, h⟩
  · intro e he
    exact ((gen_avail_error_iff plates pre start e).mp he).1

theorem generate_available_suffix_exhaustion_witness :
    generate_available_random_string ∅ "AA00" 0 ≠
      Except.error "No more unique strings available" := by
  intro h
  have hc : candidateAt 0 = "AAA" := by
    rw [candidateAt_val 0 (by norm_num)]
    decide
  have hmem : "AAA" ∈ all_possible_random_strings := by
    rw [← hc]
    exact candidateAt_mem 0
  have hin := ((generate_available_suffix_exhaustion "AA00" ∅ 0).1.mp h) "AAA" hmem
  simp at hin

/-- C5: the age identifier is a pure function of year and month with no error
conditions: months 3..8 yield the last two digits of the year, all other
months the last two digits of year + 50 (for any year with at least two
digits, "last two digits of n" is the zero-padded numeral of `n % 100`);
2010-04 gives "10", 2001-09 gives "51", 2007-03 gives "07". -/
theorem generate_age_identifier_spec (year month : Nat) (hy : 10 ≤ year) :
    ((3 ≤ month ∧ month ≤ 8) →
      generate_age_identifier year month = twoDigitString (year % 100)) ∧
    (¬(3 ≤ month ∧ month ≤ 8) →
      generate_age_identifier year month = twoDigitString ((year + 50) % 100)) ∧
    generate_age_identifier 2010 4 = "10" ∧
    generate_age_identifier 2001 9 = "51" ∧
    generate_age_identifier 2007 3 = "07" := by
  refine ⟨?_, ?_, by rfl, by rfl, by rfl⟩
  · intro hm
    unfold generate_age_identifier
    rw [if_pos hm]
    exact pyLastTwo_decimal year hy
  · intro hm
    unfold generate_age_identifier
    rw [if_neg hm]
    exact pyLastTwo_decimal (year + 50) (by omega)

theorem generate_age_identifier_spec_witness :
    (10 : Nat) ≤ 2010 ∧ (3 ≤ 4 ∧ 4 ≤ 8) ∧
      generate_age_identifier 2010 4 = twoDigitString (2010 % 100) :=
  ⟨by norm_num, by norm_num,
    (generate_age_identifier_spec 2010 4 (by norm_num)).1 (by norm_num)⟩

-- Concrete candidate values used in the end-to-end cases.

theorem candidateAt_0 : candidateAt 0 = "AAA" := by
  rw [candidateAt_val 0 (by norm_num)]
  decide

theorem candidateAt_1 : candidateAt 1 = "AAB" := by
  rw [candidateAt_val 1 (by norm_num)]
  decide

theorem candidateAt_2 : candidateAt 2 = "AAC" := by
  rw [candidateAt_val 2 (by norm_num)]
  decide

theorem candidateAt_5 : candidateAt 5 = "AAF" := by
  rw [candidateAt_val 5 (by norm_num)]
  decide

theorem candidateAt_645 : candidateAt 645 = "BFB" := by
  rw [candidateAt_val 645 (by norm_num)]
  decide

/-- On an empty tracked set the scan succeeds immediately with the candidate
at the start index. -/
theorem gen_avail_empty (pre : String) (start : Nat) :
    generate_available_random_string ∅ pre start =
      Except.ok (candidateAt start) := by
  have h := gen_avail_eval ∅ pre start 0 (by norm_num)
    (fun j hj => by omega) (Finset.not_mem_empty _)
  rw [Nat.add_zero] at h
  exact h

theorem scan_ER59 :
    generate_available_random_string {"ER59 AAA", "ER59 AAB"} "ER59" 0 =
      Except.ok "AAC" := by
  have h := gen_avail_eval {"ER59 AAA", "ER59 AAB"} "ER59" 0 2 (by norm_num) ?_ ?_
  · rw [show (0 + 2 : Nat) = 2 from rfl, candidateAt_2] at h
    exact h
  · intro j hj
    interval_cases j
    · rw [show (0 + 0 : Nat) = 0 from rfl, candidateAt_0]
      decide
    · rw [show (0 + 1 : Nat) = 1 from rfl, candidateAt_1]
      decide
  · rw [show (0 + 2 : Nat) = 2 from rfl, candidateAt_2]
    decide

/-- C2: for a parseable date and a valid tag, a successful mint returns
`upper(tag) ++ ageCode ++ " " ++ suffix` with the age code from
`generate_age_identifier` and the suffix from the scan on that prefix; the
identifier was free beforehand and the tracked set afterwards is the old set
plus exactly that identifier.  Concretely, tag "YR" with date "03/11/2017"
and start index 5 on the empty set mints "YR67 AAF", and tag "GH" with date
"06/07/2021" and start index 645 mints "GH21 BFB". -/
theorem generate_numberplate_success (plates : Finset String) (tag s : String)
    (start d m y : Nat) (rs : String)
    (hd : strptime_ddmmyyyy s = Except.ok (d, m, y))
    (hIQZ : (['I', 'Q', 'Z'].any (fun c => (pyUpper tag).data.contains c)) = false)
    (hlen : (pyUpper tag).data.length = 2)
    (hscan : generate_available_random_string plates
      (pyUpper tag ++ generate_age_identifier y m) start = Except.ok rs) :
    (generate_numberplate plates tag s start =
      (Except.ok (pyUpper tag ++ generate_age_identifier y m ++ " " ++ rs),
        insert (pyUpper tag ++ generate_age_identifier y m ++ " " ++ rs) plates)) ∧
    (pyUpper tag ++ generate_age_identifier y m ++ " " ++ rs) ∉ plates ∧
    generate_numberplate ∅ "YR" "03/11/2017" 5 =
      (Except.ok "YR67 AAF", {"YR67 AAF"}) ∧
    generate_numberplate ∅ "GH" "06/07/2021" 645 =
      (Except.ok "GH21 BFB", {"GH21 BFB"}) := by
  refine ⟨gen_numberplate_ok plates tag s start d m y rs hd hIQZ hlen hscan,
    gen_avail_ok_not_mem plates _ start rs hscan, ?_, ?_⟩
  · have hscan1 : generate_available_random_string ∅
        (pyUpper "YR" ++ generate_age_identifier 2017 11) 5 = Except.ok "AAF" := by
      rw [show pyUpper "YR" ++ generate_age_identifier 2017 11 = "YR67" from rfl,
        gen_avail_empty "YR67" 5, candidateAt_5]
    have h := gen_numberplate_ok ∅ "YR" "03/11/2017" 5 3 11 2017 "AAF"
      (by rfl) (by rfl) (by rfl) hscan1
    rw [show pyUpper "YR" ++ generate_age_identifier 2017 11 ++ " " ++ "AAF" =
      "YR67 AAF" from rfl] at h
    rw [h]
    decide
  · have hscan2 : generate_available_random_string ∅
        (pyUpper "GH" ++ generate_age_identifier 2021 7) 645 = Except.ok "BFB" := by
      rw [show pyUpper "GH" ++ generate_age_identifier 2021 7 = "GH21" from rfl,
        gen_avail_empty "GH21" 645, candidateAt_645]
    have h := gen_numberplate_ok ∅ "GH" "06/07/2021" 645 6 7 2021 "BFB"
      (by rfl) (by rfl) (by rfl) hscan2
    rw [show pyUpper "GH" ++ generate_age_identifier 2021 7 ++ " " ++ "BFB" =
      "GH21 BFB" from rfl] at h
    rw [h]
    decide

theorem generate_numberplate_success_witness :
    strptime_ddmmyyyy "08/01/2009" = Except.ok (8, 1, 2009) ∧
    generate_numberplate {"ER59 AAA", "ER59 AAB"} "ER" "08/01/2009" 0 =
      (Except.ok "ER59 AAC", {"ER59 AAA", "ER59 AAB", "ER59 AAC"}) := by
  have hscan : generate_available_random_string {"ER59 AAA", "ER59 AAB"}
      (pyUpper "ER" ++ generate_age_identifier 2009 1) 0 = Except.ok "AAC" := by
    rw [show pyUpper "ER" ++ generate_age_identifier 2009 1 = "ER59" from rfl]
    exact scan_ER59
  have h := (generate_numberplate_success {"ER59 AAA", "ER59 AAB"} "ER"
    "08/01/2009" 0 8 1 2009 "AAC" (by rfl) (by rfl) (by rfl) hscan).1
  refine ⟨by rfl, ?_⟩
  rw [show pyUpper "ER" ++ generate_age_identifier 2009 1 ++ " " ++ "AAC" =
    "ER59 AAC" from rfl] at h
  rw [h]
  decide

/-- C3: validation order of `generate_numberplate`.  The date string is parsed
first: any parse failure is returned as-is whatever the tag, and a string not
matching the textual format yields exactly the format message carrying the
literal input.  Only then is the upper-cased tag checked for I, Q, Z (fixed
message) and afterwards for length 2 (fixed message).  Hence tag "YQ" always
gives the excluded-letter message for any parseable date, and a malformed
date always gives the date-format message even when the tag is invalid. -/
theorem generate_numberplate_validation_order (plates : Finset String)
    (tag s : String) (start : Nat) :
    (matchFormat s.data = none →
      generate_numberplate plates tag s start =
        (Except.error ("time data '" ++ s ++ "' does not match format '%d/%m/%Y'"),
          plates)) ∧
    (∀ e, strptime_ddmmyyyy s = Except.error e →
      generate_numberplate plates tag s start = (Except.error e, plates)) ∧
    (∀ d m y, strptime_ddmmyyyy s = Except.ok (d, m, y) →
      (['I', 'Q', 'Z'].any (fun c => (pyUpper tag).data.contains c)) = true →
      generate_numberplate plates tag s start =
        (Except.error "I, Q, Z not allowed in UK number plates", plates)) ∧
    (∀ d m y, strptime_ddmmyyyy s = Except.ok (d, m, y) →
      (['I', 'Q', 'Z'].any (fun c => (pyUpper tag).data.contains c)) = false →
      (pyUpper tag).data.length ≠ 2 →
      generate_numberplate plates tag s start =
        (Except.error "DVLA memory tag must be 2 characters in length", plates)) ∧
    (∀ d m y, strptime_ddmmyyyy s = Except.ok (d, m, y) →
      generate_numberplate plates "YQ" s start =
        (Except.error "I, Q, Z not allowed in UK number plates", plates)) := by
  refine ⟨?_,
    fun e he => gen_numberplate_date_error plates tag s start e he,
    fun d m y hd hIQZ =>
      gen_numberplate_IQZ_error plates tag s start d m y hd hIQZ,
    fun d m y hd hIQZ hlen =>
      gen_numberplate_len_error plates tag s start d m y hd hIQZ hlen,
    fun d m y hd =>
      gen_numberplate_IQZ_error plates "YQ" s start d m y hd (by rfl)⟩
  intro hmf
  have hs : strptime_ddmmyyyy s =
      Except.error ("time data '" ++ s ++ "' does not match format '%d/%m/%Y'") := by
    unfold strptime_ddmmyyyy
    rw [hmf]
  exact gen_numberplate_date_error plates tag s start _ hs

theorem generate_numberplate_validation_order_witness :
    matchFormat ("03-11-2017" : String).data = none ∧
      generate_numberplate ∅ "YQ" "03-11-2017" 0 =
        (Except.error "time data '03-11-2017' does not match format '%d/%m/%Y'", ∅) :=
  ⟨by rfl,
    (generate_numberplate_validation_order ∅ "YQ" "03-11-2017" 0).1 (by rfl)⟩

/-- C6: whenever `generate_numberplate` raises any error — date format, tag
validation, or suffix exhaustion — the tracked set after the call equals the
set before it; the error is raised before any mutation. -/
theorem generate_numberplate_error_preserves_set (plates : Finset String)
    (tag s : String) (start : Nat) (e : String)
    (h : (generate_numberplate plates tag s start).1 = Except.error e) :
    (generate_numberplate plates tag s start).2 = plates := by
  rcases gen_numberplate_cases plates tag s start with h2 | ⟨plate, hok, _⟩
  · exact h2
  · rw [hok] at h
    exact Except.noConfusion h

theorem generate_numberplate_error_preserves_set_witness :
    (generate_numberplate ∅ "YQ" "03/11/2017" 0).1 =
        Except.error "I, Q, Z not allowed in UK number plates" ∧
      (generate_numberplate ∅ "YQ" "03/11/2017" 0).2 = ∅ :=
  ⟨by rfl,
    generate_numberplate_error_preserves_set ∅ "YQ" "03/11/2017" 0
      "I, Q, Z not allowed in UK number plates" (by rfl)⟩

/-- C10: `generate_numberplate` never checks that the tag consists of
letters: any tag whose upper-cased form has 2 characters and none of I, Q, Z
— digits and punctuation included — passes both tag checks, neither
tag-validation error can be raised, and a minted identifier embeds the
normalised tag verbatim; concretely tag "45" mints "4567 AAA". -/
theorem generate_numberplate_no_letter_check (plates : Finset String)
    (tag s : String) (start d m y : Nat)
    (hd : strptime_ddmmyyyy s = Except.ok (d, m, y))
    (hIQZ : (['I', 'Q', 'Z'].any (fun c => (pyUpper tag).data.contains c)) = false)
    (hlen : (pyUpper tag).data.length = 2) :
    (generate_numberplate plates tag s start).1 ≠
      Except.error "I, Q, Z not allowed in UK number plates" ∧
    (generate_numberplate plates tag s start).1 ≠
      Except.error "DVLA memory tag must be 2 characters in length" ∧
    (∀ rs, generate_available_random_string plates
        (pyUpper tag ++ generate_age_identifier y m) start = Except.ok rs →
      (generate_numberplate plates tag s start).1 =
        Except.ok (pyUpper tag ++ generate_age_identifier y m ++ " " ++ rs)) ∧
    generate_numberplate ∅ "45" "03/11/2017" 0 =
      (Except.ok "4567 AAA", {"4567 AAA"}) := by
  have hmain : ∀ e1 : String, e1 ≠ "No more unique strings available" →
      (generate_numberplate plates tag s start).1 ≠ Except.error e1 := by
    intro e1 hne hcontra
    cases hscan : generate_available_random_string plates
        (pyUpper tag ++ generate_age_identifier y m) start with
    | ok rs =>
      rw [gen_numberplate_ok plates tag s start d m y rs hd hIQZ hlen hscan]
        at hcontra
      exact Except.noConfusion hcontra
    | error e2 =>
      have he2 : e2 = "No more unique strings available" :=
        ((gen_avail_error_iff plates _ start e2).mp hscan).1
      rw [gen_numberplate_scan_error plates tag s start d m y e2 hd hIQZ hlen
        hscan] at hcontra
      injection hcontra with hcontra
      exact hne (hcontra ▸ he2)
  refine ⟨hmain _ (by decide), hmain _ (by decide), ?_, ?_⟩
  · intro rs hscan
    rw [gen_numberplate_ok plates tag s start d m y rs hd hIQZ hlen hscan]
  · have hscan45 : generate_available_random_string ∅
        (pyUpper "45" ++ generate_age_identifier 2017 11) 0 = Except.ok "AAA" := by
      rw [show pyUpper "45" ++ generate_age_identifier 2017 11 = "4567" from rfl,
        gen_avail_empty "4567" 0, candidateAt_0]
    have h := gen_numberplate_ok ∅ "45" "03/11/2017" 0 3 11 2017 "AAA"
      (by rfl) (by rfl) (by rfl) hscan45
    rw [show pyUpper "45" ++ generate_age_identifier 2017 11 ++ " " ++ "AAA" =
      "4567 AAA" from rfl] at h
    rw [h]
    decide

theorem generate_numberplate_no_letter_check_witness :
    strptime_ddmmyyyy "03/11/2017" = Except.ok (3, 11, 2017) ∧
      generate_numberplate ∅ "45" "03/11/2017" 0 =
        (Except.ok "4567 AAA", {"4567 AAA"}) :=
  ⟨by rfl,
    (generate_numberplate_no_letter_check ∅ "45" "03/11/2017" 0 3 11 2017
      (by rfl) (by rfl) (by rfl)).2.2.2⟩

/-- C7: persisting and re-loading reproduces the tracked set exactly — the
save writes one single-field record per identifier and the load returns the
set of first fields of non-empty rows with duplicates collapsed, so the
round-trip is the identity on sets regardless of write order. -/
theorem save_load_roundtrip (plates : Finset String) :
    load_from_csv (save_to_csv plates) = plates ∧
    (save_to_csv plates).length = plates.card := by
  constructor
  · unfold load_from_csv save_to_csv
    have hfil : (((plates.sort (· ≤ ·)).map (fun s => [s])).filter
        (fun r => !r.isEmpty)) = (plates.sort (· ≤ ·)).map (fun s => [s]) := by
      rw [List.filter_eq_self]
      intro a ha
      obtain ⟨x, _, hx⟩ := List.mem_map.mp ha
      rw [← hx]
      rfl
    rw [hfil, List.map_map]
    have hcomp : ((fun r => List.headD r "") ∘ fun s : String => [s]) =
        fun s : String => s := by
      funext s
      rfl
    rw [hcomp, List.map_id', Finset.sort_toFinset]
  · unfold save_to_csv
    rw [List.length_map, Finset.length_sort]

/-- The code's extension check `save_file_path[-4:] != ".csv"` accepts exactly
the strings ending in ".csv". -/
theorem pyLastFour_eq_iff (p : String) :
    pyLastFour p = ".csv" ↔ ['.', 'c', 's', 'v'] <:+ p.data := by
  constructor
  · intro h
    have hd : p.data.drop (p.data.length - 4) = ['.', 'c', 's', 'v'] :=
      congrArg String.data h
    rw [← hd]
    exact List.drop_suffix _ _
  · intro hsuf
    obtain ⟨t, ht⟩ := hsuf
    have hlen : p.data.length - 4 = t.length := by
      rw [← ht, List.length_append]
      simp
    unfold pyLastFour
    rw [hlen, ← ht, List.drop_left]

/-- C8 counterexample: when the file exists and the load raises an `IOError`,
the constructed instance is **not** left with an empty tracked set — the
attribute is simply never assigned (`none`), so the claim's "empty Tracked
Set" fails on this concrete input. -/
theorem init_load_error_not_empty_set :
    generatorInit "plates.csv" true (Except.error "disk unreadable") ≠
      Except.ok (some (∅ : Finset String)) := by
  decide

/-- C8 as amended: when the file exists and the load fails with an I/O error,
the constructor swallows the error (it returns normally, nothing is raised)
but leaves the tracked-plates attribute unassigned — `none`, not the empty
set.  The empty set only arises on the no-file path. -/
theorem init_load_error_leaves_unset (path e : String)
    (hcsv : ['.', 'c', 's', 'v'] <:+ path.data) :
    generatorInit path true (Except.error e) = Except.ok none := by
  have h4 : pyLastFour path = ".csv" := (pyLastFour_eq_iff path).mpr hcsv
  unfold generatorInit
  rw [if_neg (fun hne => hne h4)]
  rfl

theorem init_load_error_leaves_unset_witness :
    (['.', 'c', 's', 'v'] <:+ ("plates.csv" : String).data) ∧
      generatorInit "plates.csv" true (Except.error "disk unreadable") =
        Except.ok none :=
  ⟨⟨['p', 'l', 'a', 't', 'e', 's'], rfl⟩,
    init_load_error_leaves_unset "plates.csv" "disk unreadable"
      ⟨['p', 'l', 'a', 't', 'e', 's'], rfl⟩⟩

/-- C9: construction rejects any path not ending in ".csv" with the fixed
message, independently of the file system (the check precedes any file
access, so neither `fileExists` nor the load outcome can influence it); the
extensionless path "testcsv" is rejected; a path ending in ".csv" never
triggers this error, and when no file exists the tracked set is initialised
empty without touching the load. -/
theorem generator_init_extension_check (path : String) (fe : Bool)
    (lr : Except String (Finset String)) :
    (¬ (['.', 'c', 's', 'v'] <:+ path.data) →
      generatorInit path fe lr = Except.error "File must be a .csv file") ∧
    ((['.', 'c', 's', 'v'] <:+ path.data) →
      generatorInit path fe lr ≠ Except.error "File must be a .csv file") ∧
    ((['.', 'c', 's', 'v'] <:+ path.data) → fe = false →
      generatorInit path fe lr = Except.ok (some ∅)) ∧
    generatorInit "testcsv" fe lr = Except.error "File must be a .csv file" := by
  refine ⟨?_, ?_, ?_, ?_⟩
  · intro hno
    unfold generatorInit
    rw [if_pos (fun heq => hno ((pyLastFour_eq_iff path).mp heq))]
  · intro hyes
    have h4 : pyLastFour path = ".csv" := (pyLastFour_eq_iff path).mpr hyes
    unfold generatorInit
    rw [if_neg (fun hne => hne h4)]
    exact fun hc => Except.noConfusion hc
  · intro hyes hfe
    subst hfe
    have h4 : pyLastFour path = ".csv" := (pyLastFour_eq_iff path).mpr hyes
    unfold generatorInit
    rw [if_neg (fun hne => hne h4)]
    rfl
  · unfold generatorInit
    rw [if_pos (by decide)]

theorem generator_init_extension_check_witness :
    (['.', 'c', 's', 'v'] <:+ ("a.csv" : String).data) ∧
      generatorInit "a.csv" false (Except.error "boom") = Except.ok (some ∅) :=
  ⟨⟨['a'], rfl⟩,
    (generator_init_extension_check "a.csv" false (Except.error "boom")).2.2.1
      ⟨['a'], rfl⟩ rfl⟩
